import Mathlib

/-!
Verification of the record abstraction layer of `oas-common`
(`src/oas-common/src/record.rs`): untyped and typed records, the
conversion protocol between them, the JSON merge-patch operation and the
wire JSON shape produced by the serde derives.

JSON values are embedded as the inductive `Value`; JSON objects
(`serde_json::Map<String, Value>`) as association lists `Obj` with
insert-overwrite semantics, mirroring the map behaviour the code relies
on (lookup by key, insert replaces an existing key, remove erases it).
-/

/-- A JSON value (`serde_json::Value`). -/
inductive Value where
  | null : Value
  | bool : Bool → Value
  | num : Int → Value
  | str : String → Value
  | arr : List Value → Value
  | obj : List (String × Value) → Value
  deriving Repr

mutual

/-- Decidable equality of JSON values (hand-written: the nested
inductive is out of reach of deriving). -/
def Value.decEq : (a b : Value) → Decidable (a = b)
  | .null, .null => .isTrue rfl
  | .null, .bool _ => .isFalse (fun h => Value.noConfusion h)
  | .null, .num _ => .isFalse (fun h => Value.noConfusion h)
  | .null, .str _ => .isFalse (fun h => Value.noConfusion h)
  | .null, .arr _ => .isFalse (fun h => Value.noConfusion h)
  | .null, .obj _ => .isFalse (fun h => Value.noConfusion h)
  | .bool _, .null => .isFalse (fun h => Value.noConfusion h)
  | .bool x, .bool y =>
    if h : x = y then .isTrue (by rw [h])
    else .isFalse (fun hh => h (by injection hh))
  | .bool _, .num _ => .isFalse (fun h => Value.noConfusion h)
  | .bool _, .str _ => .isFalse (fun h => Value.noConfusion h)
  | .bool _, .arr _ => .isFalse (fun h => Value.noConfusion h)
  | .bool _, .obj _ => .isFalse (fun h => Value.noConfusion h)
  | .num _, .null => .isFalse (fun h => Value.noConfusion h)
  | .num _, .bool _ => .isFalse (fun h => Value.noConfusion h)
  | .num x, .num y =>
    if h : x = y then .isTrue (by rw [h])
    else .isFalse (fun hh => h (by injection hh))
  | .num _, .str _ => .isFalse (fun h => Value.noConfusion h)
  | .num _, .arr _ => .isFalse (fun h => Value.noConfusion h)
  | .num _, .obj _ => .isFalse (fun h => Value.noConfusion h)
  | .str _, .null => .isFalse (fun h => Value.noConfusion h)
  | .str _, .bool _ => .isFalse (fun h => Value.noConfusion h)
  | .str _, .num _ => .isFalse (fun h => Value.noConfusion h)
  | .str x, .str y =>
    if h : x = y then .isTrue (by rw [h])
    else .isFalse (fun hh => h (by injection hh))
  | .str _, .arr _ => .isFalse (fun h => Value.noConfusion h)
  | .str _, .obj _ => .isFalse (fun h => Value.noConfusion h)
  | .arr _, .null => .isFalse (fun h => Value.noConfusion h)
  | .arr _, .bool _ => .isFalse (fun h => Value.noConfusion h)
  | .arr _, .num _ => .isFalse (fun h => Value.noConfusion h)
  | .arr _, .str _ => .isFalse (fun h => Value.noConfusion h)
  | .arr xs, .arr ys =>
    match Value.decEqValues xs ys with
    | .isTrue h => .isTrue (by rw [h])
    | .isFalse h => .isFalse (fun hh => h (by injection hh))
  | .arr _, .obj _ => .isFalse (fun h => Value.noConfusion h)
  | .obj _, .null => .isFalse (fun h => Value.noConfusion h)
  | .obj _, .bool _ => .isFalse (fun h => Value.noConfusion h)
  | .obj _, .num _ => .isFalse (fun h => Value.noConfusion h)
  | .obj _, .str _ => .isFalse (fun h => Value.noConfusion h)
  | .obj _, .arr _ => .isFalse (fun h => Value.noConfusion h)
  | .obj xs, .obj ys =>
    match Value.decEqEntries xs ys with
    | .isTrue h => .isTrue (by rw [h])
    | .isFalse h => .isFalse (fun hh => h (by injection hh))

/-- Decidable equality of JSON value lists. -/
def Value.decEqValues : (xs ys : List Value) → Decidable (xs = ys)
  | [], [] => .isTrue rfl
  | [], _ :: _ => .isFalse (fun h => List.noConfusion h)
  | _ :: _, [] => .isFalse (fun h => List.noConfusion h)
  | x :: xs, y :: ys =>
    match Value.decEq x y, Value.decEqValues xs ys with
    | .isTrue h1, .isTrue h2 => .isTrue (by rw [h1, h2])
    | .isFalse h1, _ => .isFalse (fun hh => h1 (by injection hh))
    | _, .isFalse h2 => .isFalse (fun hh => h2 (by injection hh))

/-- Decidable equality of JSON object entry lists. -/
def Value.decEqEntries : (xs ys : List (String × Value)) → Decidable (xs = ys)
  | [], [] => .isTrue rfl
  | [], _ :: _ => .isFalse (fun h => List.noConfusion h)
  | _ :: _, [] => .isFalse (fun h => List.noConfusion h)
  | (k1, v1) :: xs, (k2, v2) :: ys =>
    if h1 : k1 = k2 then
      match Value.decEq v1 v2, Value.decEqEntries xs ys with
      | .isTrue h2, .isTrue h3 => .isTrue (by rw [h1, h2, h3])
      | .isFalse h2, _ =>
        .isFalse (fun hh => h2 (by injection hh with h hs; injection h))
      | _, .isFalse h3 => .isFalse (fun hh => h3 (by injection hh))
    else .isFalse (fun hh => h1 (by injection hh with h hs; injection h))

end

instance : DecidableEq Value := Value.decEq

/-- A JSON object: the entry list of a `serde_json::Map<String, Value>`. -/
abbrev Obj := List (String × Value)

namespace Obj

/-- Lookup of a key in an object (`Map::get`). -/
def get (d : Obj) (k : String) : Option Value :=
  match d with
  | [] => none
  | (k', v) :: rest => if k' = k then some v else get rest k

/-- Insert a key/value pair, replacing an existing entry for the key in
place (`Map::insert` overwrite semantics). -/
def insert (d : Obj) (k : String) (v : Value) : Obj :=
  match d with
  | [] => [(k, v)]
  | (k', v') :: rest =>
    if k' = k then (k, v) :: rest else (k', v') :: insert rest k v

/-- Remove all entries for a key (`Map::remove`). -/
def remove (d : Obj) (k : String) : Obj :=
  match d with
  | [] => []
  | (k', v') :: rest => if k' = k then remove rest k else (k', v') :: remove rest k

/-- Insert every entry of a list in order (the serializer feeding entries
one by one into a `serde_json::Map`, later entries overwriting earlier
ones with the same key). -/
def insertAll (d : Obj) (es : List (String × Value)) : Obj :=
  match es with
  | [] => d
  | (k, v) :: rest => insertAll (insert d k v) rest

/-- The keys of an object, in entry order. -/
def keys (d : Obj) : List String := d.map Prod.fst

/-- Well-formedness of an object as produced by `serde_json::Map`:
no duplicate keys. -/
def Nodup (d : Obj) : Prop := (Obj.keys d).Nodup

instance (d : Obj) : Decidable (Obj.Nodup d) := by
  unfold Obj.Nodup; infer_instance

end Obj

/-- An error that occurs while encoding a record (`EncodingError`).
`serdeJson` stands for `EncodingError::SerdeJson` (the carried
`serde_json::Error` is dropped). -/
inductive EncodingError where
  | serdeJson : EncodingError
  | notAnObject : EncodingError
  deriving Repr, DecidableEq

/-- An error that occurs while decoding a record (`DecodingError`).
`serdeJson` stands for `DecodingError::SerdeJson` (the carried
`serde_json::Error` is dropped); `typeMismatch` carries the expected and
the actual type name. -/
inductive DecodingError where
  | serdeJson : DecodingError
  | typeMismatch : String → String → DecodingError
  | notAnObject : DecodingError
  deriving Repr, DecidableEq

/-- Record metadata (`RecordMeta`). The Rust field `typ` is serialized
under the JSON name `type`. -/
structure RecordMeta where
  guid : String
  typ : String
  id : String
  source : String
  seq : Nat
  version : Nat
  timestamp : Nat
  deriving Repr, DecidableEq

/-- Embedding of `RecordMeta::default()`: every string empty, every counter zero. -/
def RecordMeta.default : RecordMeta :=
  { guid := "", typ := "", id := "", source := "", seq := 0, version := 0,
    timestamp := 0 }

/-- The typed-value capability (`trait TypedValue`): a constant type name
together with the serde serialization and deserialization of the payload
type. `serialize` models `serde_json::to_value` (total for
JSON-compatible payload types); `deserialize` models
`serde_json::from_value`, `none` being a deserialization failure. -/
structure TypedValueImpl (T : Type) where
  NAME : String
  serialize : T → Value
  deserialize : Value → Option T

/-- Embedding of `TypedValue::guid`: the default guid helper, `NAME ++ "_" ++ id`. -/
def TypedValueImpl.guid (tv : TypedValueImpl T) (id : String) : String :=
  tv.NAME ++ "_" ++ id

/-- An untyped record (`UntypedRecord`): metadata plus a free-form JSON
object payload. -/
structure UntypedRecord where
  meta : RecordMeta
  value : Obj
  deriving Repr, DecidableEq

/-- A record with a strongly typed value (`TypedRecord<T>`). -/
structure TypedRecord (T : Type) where
  meta : RecordMeta
  value : T

/-- Embedding of `UntypedRecord::with_typ_id_value`: build an untyped record from type
and id strings and a JSON value; the value must be an object, and the
remaining metadata fields default. -/
def UntypedRecord.with_typ_id_value (typ id : String) (value : Value) :
    Except DecodingError UntypedRecord :=
  let meta : RecordMeta := { RecordMeta.default with typ := typ, id := id }
  match value with
  | .obj object => .ok { meta := meta, value := object }
  | _ => .error .notAnObject

/-- Embedding of `UntypedRecord::into_typed_record::<T>`: check the type tag, then
deserialize the payload object into `T`. -/
def UntypedRecord.into_typed_record (tv : TypedValueImpl T)
    (self : UntypedRecord) : Except DecodingError (TypedRecord T) :=
  if self.meta.typ ≠ tv.NAME then
    .error (.typeMismatch tv.NAME self.meta.typ)
  else
    match tv.deserialize (Value.obj self.value) with
    | none => .error .serdeJson
    | some value => .ok { meta := self.meta, value := value }

/-- Mutual embedding of `json_patch::merge` (RFC 7386 merge patch):
a non-object patch replaces the target wholesale; an object patch is
applied entry by entry to the target coerced to an object, a `null`
entry removing the key and any other entry merging recursively into the
current value at the key (`entry(key).or_insert(Null)`). -/
def jsonMerge (doc : Value) (patch : Value) : Value :=
  match patch with
  | .obj p =>
    let base : Obj := match doc with
      | .obj d => d
      | _ => []
    Value.obj (mergeInto base p)
  | _ => patch
where
  /-- The loop over the patch object's entries inside `json_patch::merge`. -/
  mergeInto (d : Obj) (p : List (String × Value)) : Obj :=
    match p with
    | [] => d
    | (k, v) :: rest =>
      match v with
      | .null => mergeInto (Obj.remove d k) rest
      | _ =>
        mergeInto (Obj.insert d k (jsonMerge ((Obj.get d k).getD .null) v)) rest

/-- Embedding of `UntypedRecord::merge_json_value`: apply the merge patch to the
payload; the merged result must still be an object, else the record is
left untouched and a `NotAnObject` encoding error is returned. The
`&mut self` mutation is modelled by returning the updated record. -/
def UntypedRecord.merge_json_value (self : UntypedRecord)
    (value_to_merge : Value) : Except EncodingError UntypedRecord :=
  let value := jsonMerge (Value.obj self.value) value_to_merge
  match value with
  | .obj value => .ok { self with value := value }
  | _ => .error .notAnObject

/-- Embedding of `TypedRecord::from_id_and_value`: synthesize metadata from the id and
`T::NAME` and wrap the value; infallible. -/
def TypedRecord.from_id_and_value (tv : TypedValueImpl T) (id : String)
    (value : T) : TypedRecord T :=
  let typ := tv.NAME
  let guid := typ ++ "_" ++ id
  let meta : RecordMeta := { RecordMeta.default with guid := guid, id := id, typ := typ }
  { meta := meta, value := value }

/-- Embedding of `TypedRecord::into_untyped_record`: serialize the value to JSON,
require an object, and pair it with the metadata unchanged. -/
def TypedRecord.into_untyped_record (tv : TypedValueImpl T)
    (self : TypedRecord T) : Except EncodingError UntypedRecord :=
  match tv.serialize self.value with
  | .obj value => .ok { meta := self.meta, value := value }
  | _ => .error .notAnObject

/-- Serde serialization of `RecordMeta`: fields in declaration order,
`typ` under the JSON name `type`. -/
def RecordMeta.toJson (m : RecordMeta) : Value :=
  Value.obj [("guid", .str m.guid), ("type", .str m.typ), ("id", .str m.id),
    ("source", .str m.source), ("seq", .num m.seq), ("version", .num m.version),
    ("timestamp", .num m.timestamp)]

/-- Serde serialization of `UntypedRecord` (`#[serde(rename = "$meta")]`
on `meta`, `#[serde(flatten)]` on `value`): a map built by emitting the
`$meta` entry first and then every payload entry, later entries
overwriting earlier ones with the same key. -/
def UntypedRecord.toJsonValue (self : UntypedRecord) : Value :=
  Value.obj (Obj.insertAll (Obj.insert [] "$meta" self.meta.toJson) self.value)

/-- Embedding of `UntypedRecord::into_json_object`: serialize the whole record and
require the result to be an object. -/
def UntypedRecord.into_json_object (self : UntypedRecord) :
    Except EncodingError Obj :=
  match self.toJsonValue with
  | .obj value => .ok value
  | _ => .error .notAnObject

/-- Read a JSON value as a `u32`-style unsigned integer. -/
def Value.asNat (v : Value) : Option Nat :=
  match v with
  | .num n => if n < 0 then none else some n.toNat
  | _ => none

/-- Read a JSON value as a string. -/
def Value.asStr (v : Value) : Option String :=
  match v with
  | .str s => some s
  | _ => none

/-- Serde deserialization of `RecordMeta`: all seven fields required,
`typ` read from the JSON name `type`; unknown fields ignored. -/
def RecordMeta.fromJson (v : Value) : Option RecordMeta :=
  match v with
  | .obj o => do
    let guid ← (Obj.get o "guid").bind Value.asStr
    let typ ← (Obj.get o "type").bind Value.asStr
    let id ← (Obj.get o "id").bind Value.asStr
    let source ← (Obj.get o "source").bind Value.asStr
    let seq ← (Obj.get o "seq").bind Value.asNat
    let version ← (Obj.get o "version").bind Value.asNat
    let timestamp ← (Obj.get o "timestamp").bind Value.asNat
    pure (RecordMeta.mk guid typ id source seq version timestamp)
  | _ => none

/-- Serde deserialization of `UntypedRecord` with `#[serde(flatten)]`:
the `$meta` entry is consumed for the metadata and every remaining entry
goes to the flattened payload. -/
def UntypedRecord.fromJsonValue (v : Value) : Option UntypedRecord :=
  match v with
  | .obj o => do
    let mv ← Obj.get o "$meta"
    let meta ← RecordMeta.fromJson mv
    pure (UntypedRecord.mk meta (Obj.remove o "$meta"))
  | _ => none

/-- A concrete domain payload used as witness material: the `Media`-like
type of the spec scenario, one `title` field. -/
structure Media where
  title : String
  deriving Repr, DecidableEq

/-- The typed-value capability of `Media`: `NAME = "media"`, serde derive
serialization over the single `title` field. -/
def mediaTV : TypedValueImpl Media :=
  { NAME := "media"
    serialize := fun m => Value.obj [("title", .str m.title)]
    deserialize := fun v =>
      match v with
      | .obj o =>
        ((Obj.get o "title").bind Value.asStr).map (fun t => Media.mk t)
      | _ => none }

/-! ## Lookup lemmas for the object operations -/

theorem Obj.get_insert (d : Obj) (k : String) (v : Value) (k' : String) :
    Obj.get (Obj.insert d k v) k' = if k = k' then some v else Obj.get d k' := by
  induction d with
  | nil => simp [Obj.insert, Obj.get]
  | cons e rest ih =>
    obtain ⟨k1, v1⟩ := e
    by_cases h1 : k1 = k
    · subst h1
      by_cases h2 : k1 = k'
      · subst h2; simp [Obj.insert, Obj.get]
      · simp [Obj.insert, Obj.get, h2, Ne.symm h2]
    · by_cases h2 : k1 = k'
      · subst h2
        have : ¬ k = k1 := fun h => h1 h.symm
        simp [Obj.insert, Obj.get, h1, this]
      · simp [Obj.insert, Obj.get, h1, h2, ih]

theorem Obj.get_remove (d : Obj) (k k' : String) :
    Obj.get (Obj.remove d k) k' = if k = k' then none else Obj.get d k' := by
  induction d with
  | nil => simp [Obj.remove, Obj.get]
  | cons e rest ih =>
    obtain ⟨k1, v1⟩ := e
    by_cases h1 : k1 = k
    · subst h1
      by_cases h2 : k1 = k'
      · subst h2; simp [Obj.remove, Obj.get, ih]
      · simp [Obj.remove, Obj.get, h2, ih, Ne.symm h2]
    · by_cases h2 : k1 = k'
      · subst h2
        have : ¬ k = k1 := fun h => h1 h.symm
        simp [Obj.remove, Obj.get, h1, this, ih]
      · simp [Obj.remove, Obj.get, h1, h2, ih]

theorem Obj.get_eq_none_of_not_mem (d : Obj) (k : String)
    (h : k ∉ Obj.keys d) : Obj.get d k = none := by
  induction d with
  | nil => simp [Obj.get]
  | cons e rest ih =>
    obtain ⟨k1, v1⟩ := e
    simp only [Obj.keys, List.map_cons, List.mem_cons, not_or] at h
    have h1 : ¬ k1 = k := fun hh => h.1 hh.symm
    simp only [Obj.get, h1, if_false]
    exact ih h.2

theorem Obj.get_insertAll (es : List (String × Value)) (d : Obj) (k : String)
    (hes : (es.map Prod.fst).Nodup) :
    Obj.get (Obj.insertAll d es) k =
      match Obj.get es k with
      | some v => some v
      | none => Obj.get d k := by
  induction es generalizing d with
  | nil => simp [Obj.insertAll, Obj.get]
  | cons e rest ih =>
    obtain ⟨k1, v1⟩ := e
    simp only [List.map_cons, List.nodup_cons] at hes
    by_cases h : k1 = k
    · subst h
      have hnone : Obj.get rest k1 = none :=
        Obj.get_eq_none_of_not_mem rest k1 (by simpa [Obj.keys] using hes.1)
      simp [Obj.insertAll, Obj.get, ih _ hes.2, hnone, Obj.get_insert]
    · simp only [Obj.insertAll, Obj.get, h]
      rw [ih _ hes.2]
      simp [Obj.get_insert, h]

theorem mergeInto_get_none (p : List (String × Value)) (d : Obj) (k : String)
    (h : Obj.get p k = none) :
    Obj.get (jsonMerge.mergeInto d p) k = Obj.get d k := by
  induction p generalizing d with
  | nil => simp [jsonMerge.mergeInto]
  | cons e rest ih =>
    obtain ⟨k1, v1⟩ := e
    have h1 : ¬ k1 = k := by
      intro hh; simp [Obj.get, hh] at h
    have h2 : Obj.get rest k = none := by
      simpa [Obj.get, h1] using h
    cases v1 <;>
      simp [jsonMerge.mergeInto, ih _ h2, Obj.get_remove, Obj.get_insert, h1]

theorem mergeInto_get_null (p : List (String × Value)) (d : Obj) (k : String)
    (hp : (p.map Prod.fst).Nodup) (h : Obj.get p k = some .null) :
    Obj.get (jsonMerge.mergeInto d p) k = none := by
  induction p generalizing d with
  | nil => simp [Obj.get] at h
  | cons e rest ih =>
    obtain ⟨k1, v1⟩ := e
    simp only [List.map_cons, List.nodup_cons] at hp
    by_cases h1 : k1 = k
    · subst h1
      have hv : v1 = .null := by simpa [Obj.get] using h
      subst hv
      have hrest : Obj.get rest k1 = none :=
        Obj.get_eq_none_of_not_mem rest k1 (by simpa [Obj.keys] using hp.1)
      simp [jsonMerge.mergeInto, mergeInto_get_none _ _ _ hrest, Obj.get_remove]
    · have h2 : Obj.get rest k = some .null := by simpa [Obj.get, h1] using h
      cases v1 <;>
        simp [jsonMerge.mergeInto, ih _ hp.2 h2]

theorem mergeInto_get_some (p : List (String × Value)) (d : Obj) (k : String)
    (v : Value) (hp : (p.map Prod.fst).Nodup) (h : Obj.get p k = some v)
    (hv : v ≠ .null) :
    Obj.get (jsonMerge.mergeInto d p) k
      = some (jsonMerge ((Obj.get d k).getD .null) v) := by
  induction p generalizing d with
  | nil => simp [Obj.get] at h
  | cons e rest ih =>
    obtain ⟨k1, v1⟩ := e
    simp only [List.map_cons, List.nodup_cons] at hp
    by_cases h1 : k1 = k
    · subst h1
      have hv1 : v1 = v := by simpa [Obj.get] using h
      subst hv1
      have hrest : Obj.get rest k1 = none :=
        Obj.get_eq_none_of_not_mem rest k1 (by simpa [Obj.keys] using hp.1)
      cases v1 <;>
        simp_all [jsonMerge.mergeInto, mergeInto_get_none _ _ _ hrest,
          Obj.get_insert]
    · have h2 : Obj.get rest k = some v := by simpa [Obj.get, h1] using h
      cases v1 <;>
        simp [jsonMerge.mergeInto, ih _ hp.2 h2, Obj.get_remove,
          Obj.get_insert, h1]

/-- C1: for a well-formed typed record `r` of a type `T` implementing the
typed-value capability (the serde implementation of `T` round-trips on
`r`'s value), downgrading, upgrading the result and downgrading again
yields the same untyped record as the first downgrade, all fields (the
whole payload object, unknown keys included, and the whole metadata)
preserved. -/
theorem round_trip_downgrade_upgrade_downgrade {T : Type}
    (tv : TypedValueImpl T) (r r' : TypedRecord T) (u : UntypedRecord)
    (hlaw : tv.deserialize (tv.serialize r.value) = some r.value)
    (h1 : TypedRecord.into_untyped_record tv r = .ok u)
    (h2 : UntypedRecord.into_typed_record tv u = .ok r') :
    TypedRecord.into_untyped_record tv r' = .ok u := by
  unfold TypedRecord.into_untyped_record at h1 ⊢
  unfold UntypedRecord.into_typed_record at h2
  rcases hso : tv.serialize r.value with _ | _ | _ | _ | _ | o <;>
    rw [hso] at h1 hlaw <;> simp at h1
  subst h1
  simp only at h2
  split at h2
  · exact absurd h2 (by simp)
  · rw [hlaw] at h2
    simp at h2
    subst h2
    simp [hso]

/-- C1 witness: a concrete `Media` record round-trips. -/
theorem round_trip_downgrade_upgrade_downgrade_witness :
    TypedRecord.into_untyped_record mediaTV
        (TypedRecord.mk ⟨"media_42", "media", "42", "", 0, 0, 0⟩
          (Media.mk "X"))
      = .ok ⟨⟨"media_42", "media", "42", "", 0, 0, 0⟩, [("title", .str "X")]⟩ :=
  round_trip_downgrade_upgrade_downgrade mediaTV
    ⟨⟨"media_42", "media", "42", "", 0, 0, 0⟩, Media.mk "X"⟩
    ⟨⟨"media_42", "media", "42", "", 0, 0, 0⟩, Media.mk "X"⟩
    ⟨⟨"media_42", "media", "42", "", 0, 0, 0⟩, [("title", .str "X")]⟩
    rfl rfl rfl

/-- C2: upgrading an untyped record whose metadata type differs from
`T::NAME` always fails with `TypeMismatch(T::NAME, actual)`; when the
type tags match and the payload deserializes into `T`, the upgrade
succeeds (with the metadata carried over). -/
theorem into_typed_record_type_check {T : Type} (tv : TypedValueImpl T)
    (u : UntypedRecord) :
    (u.meta.typ ≠ tv.NAME →
      UntypedRecord.into_typed_record tv u
        = .error (.typeMismatch tv.NAME u.meta.typ)) ∧
    (u.meta.typ = tv.NAME → ∀ t, tv.deserialize (Value.obj u.value) = some t →
      UntypedRecord.into_typed_record tv u = .ok ⟨u.meta, t⟩) := by
  constructor
  · intro h
    simp [UntypedRecord.into_typed_record, h]
  · intro h t ht
    simp [UntypedRecord.into_typed_record, h, ht]

/-- C2 witness: the spec scenario — a `media`-tagged record upgrades
against `Media` and a `feed`-tagged record fails with the mismatch
error. -/
theorem into_typed_record_type_check_witness :
    UntypedRecord.into_typed_record mediaTV
        ⟨⟨"media_42", "feed", "42", "", 0, 0, 0⟩, [("title", .str "X")]⟩
      = .error (.typeMismatch "media" "feed") ∧
    UntypedRecord.into_typed_record mediaTV
        ⟨⟨"media_42", "media", "42", "", 0, 0, 0⟩, [("title", .str "X")]⟩
      = .ok ⟨⟨"media_42", "media", "42", "", 0, 0, 0⟩, Media.mk "X"⟩ :=
  ⟨(into_typed_record_type_check mediaTV
      ⟨⟨"media_42", "feed", "42", "", 0, 0, 0⟩, [("title", .str "X")]⟩).1
    (by decide),
   (into_typed_record_type_check mediaTV
      ⟨⟨"media_42", "media", "42", "", 0, 0, 0⟩, [("title", .str "X")]⟩).2
    rfl (Media.mk "X") rfl⟩

/-- C4: constructing an untyped record from type, id and a JSON value
fails with `NotAnObject` exactly when the value is not an object (the
Lean embedding is a total function, so no panic is possible); on an
object it succeeds with the given type and id in the metadata and every
other metadata field at its default. -/
theorem with_typ_id_value_shape (typ id : String) (v : Value) :
    ((∀ o, v ≠ Value.obj o) →
      UntypedRecord.with_typ_id_value typ id v = .error .notAnObject) ∧
    (∀ o, v = Value.obj o →
      UntypedRecord.with_typ_id_value typ id v
        = .ok ⟨⟨"", typ, id, "", 0, 0, 0⟩, o⟩) := by
  constructor
  · intro h
    cases v with
    | obj o => exact absurd rfl (h o)
    | _ => rfl
  · rintro o rfl
    rfl

/-- C4 witness: a string payload is rejected, an object payload is
accepted. -/
theorem with_typ_id_value_shape_witness :
    UntypedRecord.with_typ_id_value "media" "42" (Value.str "nope")
      = .error .notAnObject ∧
    UntypedRecord.with_typ_id_value "media" "42"
        (Value.obj [("title", .str "X")])
      = .ok ⟨⟨"", "media", "42", "", 0, 0, 0⟩, [("title", .str "X")]⟩ :=
  ⟨(with_typ_id_value_shape "media" "42" (Value.str "nope")).1
    (by intro o h; exact Value.noConfusion h),
   (with_typ_id_value_shape "media" "42" (Value.obj [("title", .str "X")])).2
    [("title", .str "X")] rfl⟩

/-- C5: constructing a typed record from an id and a value is infallible
(it is a total function straight into `TypedRecord T`) and yields
metadata with `guid = T::NAME ++ "_" ++ id`, `type = T::NAME` and the
given id, wrapping the given value. -/
theorem from_id_and_value_meta {T : Type} (tv : TypedValueImpl T)
    (id : String) (v : T) :
    (TypedRecord.from_id_and_value tv id v).meta.guid
        = tv.NAME ++ "_" ++ id ∧
    (TypedRecord.from_id_and_value tv id v).meta.typ = tv.NAME ∧
    (TypedRecord.from_id_and_value tv id v).meta.id = id ∧
    (TypedRecord.from_id_and_value tv id v).value = v :=
  ⟨rfl, rfl, rfl, rfl⟩

/-- C7: both conversions leave the metadata envelope unchanged: a
successful downgrade keeps the typed record's metadata field for field,
and a successful upgrade carries over exactly the untyped record's
metadata. -/
theorem conversions_preserve_meta {T : Type} (tv : TypedValueImpl T) :
    (∀ (r : TypedRecord T) (u : UntypedRecord),
      TypedRecord.into_untyped_record tv r = .ok u → u.meta = r.meta) ∧
    (∀ (u : UntypedRecord) (r' : TypedRecord T),
      UntypedRecord.into_typed_record tv u = .ok r' → r'.meta = u.meta) := by
  constructor
  · intro r u h
    unfold TypedRecord.into_untyped_record at h
    rcases hso : tv.serialize r.value with _ | _ | _ | _ | _ | o <;>
      rw [hso] at h <;> simp at h
    rw [← h]
  · intro u r' h
    unfold UntypedRecord.into_typed_record at h
    split at h
    · exact absurd h (by simp)
    · rcases hd : tv.deserialize (Value.obj u.value) with _ | t <;>
        rw [hd] at h <;> simp at h
      rw [← h]

/-- C7 witness: metadata preservation at a concrete `Media` record in
both directions. -/
theorem conversions_preserve_meta_witness :
    (UntypedRecord.mk ⟨"media_42", "media", "42", "s", 1, 2, 3⟩
        [("title", .str "X")]).meta
      = (TypedRecord.mk ⟨"media_42", "media", "42", "s", 1, 2, 3⟩
          (Media.mk "X")).meta ∧
    (TypedRecord.mk ⟨"media_42", "media", "42", "s", 1, 2, 3⟩
        (Media.mk "X")).meta
      = (UntypedRecord.mk ⟨"media_42", "media", "42", "s", 1, 2, 3⟩
          [("title", .str "X")]).meta :=
  ⟨(conversions_preserve_meta mediaTV).1
    ⟨⟨"media_42", "media", "42", "s", 1, 2, 3⟩, Media.mk "X"⟩
    ⟨⟨"media_42", "media", "42", "s", 1, 2, 3⟩, [("title", .str "X")]⟩ rfl,
   (conversions_preserve_meta mediaTV).2
    ⟨⟨"media_42", "media", "42", "s", 1, 2, 3⟩, [("title", .str "X")]⟩
    ⟨⟨"media_42", "media", "42", "s", 1, 2, 3⟩, Media.mk "X"⟩ rfl⟩

/-- C10: the success of a merge is decided by the patch's shape: an
object patch always succeeds, updating only the payload (the metadata is
returned unchanged), and a non-object patch always fails with the
`NotAnObject` encoding error, in which case no updated record is
produced at all (the embedding returns only the error, so the caller's
record is untouched). -/
theorem merge_json_value_atomic (u : UntypedRecord) (patch : Value) :
    (∀ p, patch = Value.obj p →
      UntypedRecord.merge_json_value u patch
        = .ok ⟨u.meta, jsonMerge.mergeInto u.value p⟩) ∧
    ((∀ p, patch ≠ Value.obj p) →
      UntypedRecord.merge_json_value u patch = .error .notAnObject) := by
  constructor
  · rintro p rfl
    simp [UntypedRecord.merge_json_value, jsonMerge]
  · intro h
    cases patch with
    | obj p => exact absurd rfl (h p)
    | _ => rfl

/-- C10 witness: an object patch succeeds keeping the metadata, a string
patch fails. -/
theorem merge_json_value_atomic_witness :
    UntypedRecord.merge_json_value
        ⟨⟨"media_42", "media", "42", "", 0, 0, 0⟩, [("a", .num 1)]⟩
        (Value.obj [("b", .num 2)])
      = .ok ⟨⟨"media_42", "media", "42", "", 0, 0, 0⟩,
          [("a", .num 1), ("b", .num 2)]⟩ ∧
    UntypedRecord.merge_json_value
        ⟨⟨"media_42", "media", "42", "", 0, 0, 0⟩, [("a", .num 1)]⟩
        (Value.str "nope")
      = .error .notAnObject :=
  ⟨(merge_json_value_atomic
      ⟨⟨"media_42", "media", "42", "", 0, 0, 0⟩, [("a", .num 1)]⟩
      (Value.obj [("b", .num 2)])).1 [("b", .num 2)] rfl,
   (merge_json_value_atomic
      ⟨⟨"media_42", "media", "42", "", 0, 0, 0⟩, [("a", .num 1)]⟩
      (Value.str "nope")).2
    (by intro p h; exact Value.noConfusion h)⟩

theorem Obj.keys_cons (k : String) (v : Value) (d : Obj) :
    Obj.keys ((k, v) :: d) = k :: Obj.keys d := rfl

theorem Obj.keys_append (d e : Obj) :
    Obj.keys (d ++ e) = Obj.keys d ++ Obj.keys e := by
  simp [Obj.keys]

theorem Obj.not_mem_keys_of_get_eq_none (d : Obj) (k : String)
    (h : Obj.get d k = none) : k ∉ Obj.keys d := by
  induction d with
  | nil => simp [Obj.keys]
  | cons e rest ih =>
    obtain ⟨k1, v1⟩ := e
    by_cases h1 : k1 = k
    · simp [Obj.get, h1] at h
    · simp only [Obj.get, h1, if_false] at h
      rw [Obj.keys_cons, List.mem_cons, not_or]
      exact ⟨fun hh => h1 hh.symm, ih h⟩

theorem Obj.insert_of_not_mem (d : Obj) (k : String) (v : Value)
    (h : k ∉ Obj.keys d) : Obj.insert d k v = d ++ [(k, v)] := by
  induction d with
  | nil => rfl
  | cons e rest ih =>
    obtain ⟨k1, v1⟩ := e
    simp only [Obj.keys, List.map_cons, List.mem_cons, not_or] at h
    have h1 : ¬ k1 = k := fun hh => h.1 hh.symm
    simp [Obj.insert, h1, ih (by simpa [Obj.keys] using h.2)]

theorem Obj.remove_of_not_mem (d : Obj) (k : String)
    (h : k ∉ Obj.keys d) : Obj.remove d k = d := by
  induction d with
  | nil => rfl
  | cons e rest ih =>
    obtain ⟨k1, v1⟩ := e
    simp only [Obj.keys, List.map_cons, List.mem_cons, not_or] at h
    have h1 : ¬ k1 = k := fun hh => h.1 hh.symm
    simp [Obj.remove, h1, ih (by simpa [Obj.keys] using h.2)]

theorem Obj.insertAll_fresh (es : List (String × Value)) (d : Obj)
    (hdisj : ∀ k, k ∈ Obj.keys es → k ∉ Obj.keys d) (hes : Obj.Nodup es) :
    Obj.insertAll d es = d ++ es := by
  induction es generalizing d with
  | nil => simp [Obj.insertAll]
  | cons e rest ih =>
    obtain ⟨k1, v1⟩ := e
    simp only [Obj.Nodup, Obj.keys, List.map_cons, List.nodup_cons] at hes
    have hk1 : k1 ∉ Obj.keys d :=
      hdisj k1 (by simp [Obj.keys])
    rw [Obj.insertAll, Obj.insert_of_not_mem d k1 v1 hk1]
    rw [ih (d ++ [(k1, v1)]) ?_ hes.2]
    · simp
    · intro k hk
      have hkd : k ∉ Obj.keys d :=
        hdisj k (by rw [Obj.keys_cons, List.mem_cons]; exact Or.inr hk)
      have hkk1 : k ≠ k1 := by
        intro hh; subst hh; exact hes.1 (by simpa [Obj.keys] using hk)
      rw [Obj.keys_append, List.mem_append, not_or]
      exact ⟨hkd, by simp [Obj.keys, hkk1]⟩

/-- Deserialization inverts serialization of the metadata envelope. -/
theorem RecordMeta.fromJson_toJson (m : RecordMeta) :
    RecordMeta.fromJson m.toJson = some m := by
  have h1 : ¬ ((m.seq : Int) < 0) := Int.not_lt.mpr (Int.natCast_nonneg _)
  have h2 : ¬ ((m.version : Int) < 0) := Int.not_lt.mpr (Int.natCast_nonneg _)
  have h3 : ¬ ((m.timestamp : Int) < 0) := Int.not_lt.mpr (Int.natCast_nonneg _)
  simp [RecordMeta.fromJson, RecordMeta.toJson, Obj.get, Value.asStr,
    Value.asNat, h1, h2, h3]

/-- C3: merging payload `a:1, b:2` with patch `b:null, c:3` yields
`a:1, c:3`; nested objects merge recursively rather than replacing
wholesale; and in general (for a patch object with distinct keys) a null
patch entry deletes the key, any other patch entry replaces the key by
the recursive merge of the existing value with the patch value (which
for a non-object patch value is the patch value itself, added or
overwritten wholesale), and keys the patch does not mention are left as
they were. -/
theorem merge_json_value_rfc7386 :
    (UntypedRecord.merge_json_value
        ⟨⟨"", "", "", "", 0, 0, 0⟩, [("a", .num 1), ("b", .num 2)]⟩
        (Value.obj [("b", .null), ("c", .num 3)])
      = .ok ⟨⟨"", "", "", "", 0, 0, 0⟩, [("a", .num 1), ("c", .num 3)]⟩) ∧
    (UntypedRecord.merge_json_value
        ⟨⟨"", "", "", "", 0, 0, 0⟩,
          [("x", .obj [("a", .num 1), ("b", .num 2)])]⟩
        (Value.obj [("x", .obj [("b", .num 3)])])
      = .ok ⟨⟨"", "", "", "", 0, 0, 0⟩,
          [("x", .obj [("a", .num 1), ("b", .num 3)])]⟩) ∧
    (∀ (u u' : UntypedRecord) (p : List (String × Value)),
      (p.map Prod.fst).Nodup →
      UntypedRecord.merge_json_value u (Value.obj p) = .ok u' →
      ∀ k : String,
        (Obj.get p k = some .null → Obj.get u'.value k = none) ∧
        (∀ v, Obj.get p k = some v → v ≠ .null →
          Obj.get u'.value k
            = some (jsonMerge ((Obj.get u.value k).getD .null) v)) ∧
        (Obj.get p k = none → Obj.get u'.value k = Obj.get u.value k)) := by
  refine ⟨by rfl, by rfl, ?_⟩
  intro u u' p hp h k
  have hu' : u' = ⟨u.meta, jsonMerge.mergeInto u.value p⟩ := by
    simpa [UntypedRecord.merge_json_value, jsonMerge] using h.symm
  subst hu'
  exact ⟨fun hk => mergeInto_get_null p u.value k hp hk,
    fun v hk hv => mergeInto_get_some p u.value k v hp hk hv,
    fun hk => mergeInto_get_none p u.value k hk⟩

/-- C3 witness: the general clauses applied to the spec's concrete
example — `b` deleted, `c` added, `a` untouched. -/
theorem merge_json_value_rfc7386_witness :
    Obj.get [("a", Value.num 1), ("c", Value.num 3)] "b" = none ∧
    Obj.get [("a", Value.num 1), ("c", Value.num 3)] "c" = some (.num 3) ∧
    Obj.get [("a", Value.num 1), ("c", Value.num 3)] "a" = some (.num 1) :=
  have h := merge_json_value_rfc7386.2.2
    ⟨⟨"", "", "", "", 0, 0, 0⟩, [("a", .num 1), ("b", .num 2)]⟩
    ⟨⟨"", "", "", "", 0, 0, 0⟩, [("a", .num 1), ("c", .num 3)]⟩
    [("b", .null), ("c", .num 3)] (by decide) rfl
  ⟨(h "b").1 rfl,
   by simpa using (h "c").2.1 (.num 3) rfl (by simp),
   by simpa using (h "a").2.2 rfl⟩

/-- C6 counterexample: the untyped standard constructor
`with_typ_id_value` leaves the guid at the default empty string, so for
type `media` and id `42` the constructed record violates
`guid == type ++ "_" ++ id`. -/
theorem guid_invariant_counterexample :
    UntypedRecord.with_typ_id_value "media" "42"
        (Value.obj [("title", .str "X")])
      = .ok ⟨⟨"", "media", "42", "", 0, 0, 0⟩, [("title", .str "X")]⟩ ∧
    ("" : String) ≠ "media" ++ "_" ++ "42" :=
  ⟨rfl, by decide⟩

/-- C6 amended: the guid invariant `guid == type ++ "_" ++ id` holds for
the typed constructor `from_id_and_value`; the untyped constructor
`with_typ_id_value` instead leaves the guid at its default, the empty
string. -/
theorem guid_invariant_amended {T : Type} (tv : TypedValueImpl T)
    (i : String) (v : T) (typ id : String) (val : Value)
    (u : UntypedRecord)
    (h : UntypedRecord.with_typ_id_value typ id val = .ok u) :
    (TypedRecord.from_id_and_value tv i v).meta.guid = tv.NAME ++ "_" ++ i ∧
    u.meta.guid = "" := by
  refine ⟨rfl, ?_⟩
  unfold UntypedRecord.with_typ_id_value at h
  cases val <;> simp at h
  rw [← h]
  rfl

/-- C6 amended witness: both constructors at concrete inputs. -/
theorem guid_invariant_amended_witness :
    (TypedRecord.from_id_and_value mediaTV "42" (Media.mk "X")).meta.guid
      = "media" ++ "_" ++ "42" ∧
    (UntypedRecord.mk ⟨"", "media", "42", "", 0, 0, 0⟩ []).meta.guid = "" :=
  guid_invariant_amended mediaTV "42" (Media.mk "X") "media" "42"
    (Value.obj []) ⟨⟨"", "media", "42", "", 0, 0, 0⟩, []⟩ rfl

/-- C8 counterexample: a payload key literally named `$meta` overwrites
the metadata entry during serde flatten serialization, so the metadata
does not appear under the top-level `$meta` key of the JSON object
form. -/
theorem json_shape_counterexample :
    UntypedRecord.into_json_object
        ⟨⟨"media_42", "media", "42", "", 0, 0, 0⟩, [("$meta", Value.num 1)]⟩
      = .ok [("$meta", Value.num 1)] ∧
    Obj.get [("$meta", Value.num 1)] "$meta"
      ≠ some (RecordMeta.toJson ⟨"media_42", "media", "42", "", 0, 0, 0⟩) := by
  constructor
  · rfl
  · simp [Obj.get, RecordMeta.toJson]

/-- C8 amended: for every untyped record whose payload (a well-formed
object, no duplicate keys) has no key named `$meta`, the JSON object
form carries the metadata under the literal top-level key `$meta` (its
internal `typ` field serialized under the JSON name `type`, alongside
guid, id, source, seq, version and timestamp) and every payload field
flattened as a top-level sibling of `$meta`, not nested under any
wrapper key. -/
theorem json_shape_amended (u : UntypedRecord) (h1 : Obj.Nodup u.value)
    (h2 : Obj.get u.value "$meta" = none) :
    UntypedRecord.into_json_object u
      = .ok (("$meta", u.meta.toJson) :: u.value) ∧
    Obj.get (("$meta", u.meta.toJson) :: u.value) "$meta"
      = some u.meta.toJson ∧
    (∀ k v, Obj.get u.value k = some v →
      Obj.get (("$meta", u.meta.toJson) :: u.value) k = some v) ∧
    (∃ mo, u.meta.toJson = Value.obj mo ∧
      Obj.get mo "type" = some (.str u.meta.typ) ∧
      Obj.get mo "guid" = some (.str u.meta.guid) ∧
      Obj.get mo "id" = some (.str u.meta.id) ∧
      Obj.get mo "source" = some (.str u.meta.source) ∧
      Obj.get mo "seq" = some (.num u.meta.seq) ∧
      Obj.get mo "version" = some (.num u.meta.version) ∧
      Obj.get mo "timestamp" = some (.num u.meta.timestamp)) := by
  have hnm : "$meta" ∉ Obj.keys u.value :=
    Obj.not_mem_keys_of_get_eq_none u.value "$meta" h2
  have hflat : Obj.insertAll [("$meta", u.meta.toJson)] u.value
      = ("$meta", u.meta.toJson) :: u.value := by
    rw [Obj.insertAll_fresh u.value [("$meta", u.meta.toJson)] ?_ h1]
    · rfl
    · intro k hk
      simp only [Obj.keys, List.map_cons, List.map_nil, List.mem_singleton]
      intro hh
      subst hh
      exact hnm hk
  constructor
  · unfold UntypedRecord.into_json_object UntypedRecord.toJsonValue
    rw [show Obj.insert [] "$meta" u.meta.toJson
        = [("$meta", u.meta.toJson)] from rfl, hflat]
  refine ⟨by simp [Obj.get], ?_, ?_⟩
  · intro k v hk
    have hkne : ¬ ("$meta" = k) := by
      intro hh
      rw [← hh] at hk
      rw [h2] at hk
      exact Option.noConfusion hk
    simp [Obj.get, hkne, hk]
  · exact ⟨_, rfl, by simp [RecordMeta.toJson, Obj.get]⟩

/-- C8 amended witness: the JSON object form of a concrete record. -/
theorem json_shape_amended_witness :
    UntypedRecord.into_json_object
        ⟨⟨"media_42", "media", "42", "", 0, 0, 0⟩, [("title", .str "X")]⟩
      = .ok [("$meta",
          RecordMeta.toJson ⟨"media_42", "media", "42", "", 0, 0, 0⟩),
          ("title", .str "X")] :=
  (json_shape_amended
    ⟨⟨"media_42", "media", "42", "", 0, 0, 0⟩, [("title", .str "X")]⟩
    (by decide) rfl).1

/-- C9 counterexample: a payload key literally named `$meta` does not
survive the serde round trip — serialization lets the payload entry
overwrite the metadata entry, and deserializing the result fails (the
payload value is not a valid metadata object), so the payload pair is
not recovered. -/
theorem payload_meta_key_counterexample :
    UntypedRecord.toJsonValue
        ⟨⟨"media_42", "media", "42", "", 0, 0, 0⟩, [("$meta", Value.num 1)]⟩
      = Value.obj [("$meta", Value.num 1)] ∧
    UntypedRecord.fromJsonValue (Value.obj [("$meta", Value.num 1)]) = none :=
  ⟨rfl, rfl⟩

/-- C9 amended: for every untyped record whose payload (a well-formed
object, no duplicate keys) has no key named `$meta`, every payload
key-value pair appears verbatim in the JSON object form and the whole
record survives the serde serialize/deserialize round trip; a payload
key literally named `$meta` instead overwrites the metadata entry in
the output and the round trip does not restore it. -/
theorem payload_keys_roundtrip_amended (u : UntypedRecord)
    (h1 : Obj.Nodup u.value) (h2 : Obj.get u.value "$meta" = none) :
    UntypedRecord.toJsonValue u
      = Value.obj (("$meta", u.meta.toJson) :: u.value) ∧
    (∀ k v, Obj.get u.value k = some v →
      Obj.get (("$meta", u.meta.toJson) :: u.value) k = some v) ∧
    UntypedRecord.fromJsonValue u.toJsonValue = some u := by
  have hnm : "$meta" ∉ Obj.keys u.value :=
    Obj.not_mem_keys_of_get_eq_none u.value "$meta" h2
  have hflat : Obj.insertAll [("$meta", u.meta.toJson)] u.value
      = ("$meta", u.meta.toJson) :: u.value := by
    rw [Obj.insertAll_fresh u.value [("$meta", u.meta.toJson)] ?_ h1]
    · rfl
    · intro k hk
      simp only [Obj.keys, List.map_cons, List.map_nil, List.mem_singleton]
      intro hh
      subst hh
      exact hnm hk
  have hjson : UntypedRecord.toJsonValue u
      = Value.obj (("$meta", u.meta.toJson) :: u.value) := by
    unfold UntypedRecord.toJsonValue
    rw [show Obj.insert [] "$meta" u.meta.toJson
        = [("$meta", u.meta.toJson)] from rfl, hflat]
  refine ⟨hjson, ?_, ?_⟩
  · intro k v hk
    have hkne : ¬ ("$meta" = k) := by
      intro hh
      rw [← hh] at hk
      rw [h2] at hk
      exact Option.noConfusion hk
    simp [Obj.get, hkne, hk]
  · rw [hjson]
    unfold UntypedRecord.fromJsonValue
    have hget : Obj.get (("$meta", u.meta.toJson) :: u.value) "$meta"
        = some u.meta.toJson := by simp [Obj.get]
    have hrem : Obj.remove (("$meta", u.meta.toJson) :: u.value) "$meta"
        = u.value := by
      simp only [Obj.remove, if_pos rfl]
      exact Obj.remove_of_not_mem u.value "$meta" hnm
    simp [hget, hrem, RecordMeta.fromJson_toJson]

/-- C9 amended witness: a concrete record with an ordinary payload key
round-trips through the JSON form. -/
theorem payload_keys_roundtrip_amended_witness :
    UntypedRecord.fromJsonValue
        (UntypedRecord.toJsonValue
          ⟨⟨"media_42", "media", "42", "", 0, 0, 0⟩, [("title", .str "X")]⟩)
      = some ⟨⟨"media_42", "media", "42", "", 0, 0, 0⟩, [("title", .str "X")]⟩ :=
  (payload_keys_roundtrip_amended
    ⟨⟨"media_42", "media", "42", "", 0, 0, 0⟩, [("title", .str "X")]⟩
    (by decide) rfl).2.2
